import Mathlib

/-!
Verification development for the desktop-automation agent repository.

Python strings are modelled as `List Char`; Python integer string indices
(which may be -1 for "not found") as `Int`; machine-external capabilities
(the `json.loads` decoder, the `pyautogui` automation driver, the OS
process/URL primitives) as explicit parameters or effect constructors.
Every interpreter operation returns, besides its Python return value, the
ordered list of observable effects it performed (status-queue puts, stdout
prints, log warnings, OS calls, automation-driver calls), so temporal
claims about emission order become statements about these lists.
-/

set_option maxRecDepth 4000

namespace AgentSpec

/-- Opening brace character, written via its code point. -/
def lbrace : Char := Char.ofNat 123

/-- Closing brace character, written via its code point. -/
def rbrace : Char := Char.ofNat 125

/-- Python str whitespace for str.strip(): space, tab, newline, carriage
return, vertical tab, form feed. -/
def pyIsSpace (c : Char) : Bool :=
  c.toNat = 32 || c.toNat = 9 || c.toNat = 10 || c.toNat = 13 ||
  c.toNat = 11 || c.toNat = 12

/-- Model of Python str.strip(): drop whitespace from both ends. -/
def pyStrip (s : List Char) : List Char :=
  ((s.dropWhile pyIsSpace).reverse.dropWhile pyIsSpace).reverse

/-- Index of the first occurrence of a character in a list, if any. -/
def findIdxChar (c : Char) : List Char → Option Nat
  | [] => none
  | x :: xs =>
    if x = c then some 0 else (findIdxChar c xs).map (fun i => i + 1)

/-- Model of Python str.find(c): index of the first occurrence of the
character, or -1 when absent. -/
def pyFind (s : List Char) (c : Char) : Int :=
  match findIdxChar c s with
  | some i => Int.ofNat i
  | none => -1

/-- Model of Python str.rfind(c): index of the last occurrence of the
character (located by scanning the reversal), or -1 when absent. -/
def pyRfind (s : List Char) (c : Char) : Int :=
  match findIdxChar c s.reverse with
  | some i => Int.ofNat (s.length - 1 - i)
  | none => -1

/-- Normalization Python applies to one slice index: a negative index
counts from the end, and the result is clamped into the range 0..n. -/
def pyClamp (n i : Int) : Int :=
  if i < 0 then (if i + n < 0 then 0 else i + n)
  else (if i > n then n else i)

/-- Model of Python slicing s[start:stop] (step 1) via the normalized
start and stop indices. -/
def pySlice (s : List Char) (start stop : Int) : List Char :=
  (s.take (pyClamp (Int.ofNat s.length) stop).toNat).drop
    (pyClamp (Int.ofNat s.length) start).toNat

/-- JSON values as produced by json.loads: null, booleans, numbers
(modelled exactly as rationals, which covers every literal appearing in
this development), strings, arrays, objects as ordered key-value lists. -/
inductive Json where
  | null : Json
  | bool (b : Bool) : Json
  | num (q : ℚ) : Json
  | str (s : List Char) : Json
  | arr (xs : List Json) : Json
  | obj (kvs : List (List Char × Json)) : Json

/-- Python truthiness of a JSON-derived value: None, False, 0, the empty
string, the empty array and the empty object are falsy. -/
def jsonTruthy : Json → Bool
  | Json.null => false
  | Json.bool b => b
  | Json.num q => decide (q ≠ 0)
  | Json.str s => !s.isEmpty
  | Json.arr xs => !xs.isEmpty
  | Json.obj kvs => !kvs.isEmpty

/-- Python truthiness where the value may be the Python None produced by
dict.get on a missing key. -/
def pyTruthy : Option Json → Bool
  | none => false
  | some v => jsonTruthy v

/-- Model of dict.get(k): value at the first matching key, None if absent. -/
def dictGet (kvs : List (List Char × Json)) (k : List Char) : Option Json :=
  match kvs.find? (fun kv => kv.fst = k) with
  | some kv => some kv.snd
  | none => none

/-- Model of the Python test `k in d` on a dict. -/
def hasKey (kvs : List (List Char × Json)) (k : List Char) : Bool :=
  kvs.any (fun kv => kv.fst = k)

/-- Model of the Python expression `a or b`: the left operand when truthy,
otherwise the right operand. -/
def pyOr (a b : Option Json) : Option Json :=
  if pyTruthy a then a else b

/-- JSON inter-token whitespace accepted by json.loads. -/
def jsonWs (c : Char) : Bool :=
  c.toNat = 32 || c.toNat = 9 || c.toNat = 10 || c.toNat = 13

/-- Drop JSON whitespace from the front. -/
def skipWs (s : List Char) : List Char := s.dropWhile jsonWs

/-- Parse a JSON string body after the opening quote; the modelled subset
has no escape sequences (a backslash makes the model refuse). -/
def parseJString (s : List Char) : Option (List Char × List Char) :=
  let content := s.takeWhile (fun c => !(c = '"' || c = '\\'))
  match s.drop content.length with
  | c :: rest => if c = '"' then some (content, rest) else none
  | [] => none

/-- Numeric value of a digit character. -/
def digitVal (c : Char) : Nat := c.toNat - 48

/-- Parse a nonempty run of digits into a natural number. -/
def parseDigits (s : List Char) : Option (Nat × List Char) :=
  let ds := s.takeWhile (fun c => c.isDigit)
  if ds.isEmpty then none
  else some (ds.foldl (fun acc c => acc * 10 + digitVal c) 0, s.drop ds.length)

/-- Reject a fraction or exponent continuation: the modelled subset covers
integer literals only, refusing where json.loads would build a float. -/
def noFloatTail (r : List Char) : Bool :=
  match r with
  | c :: _ => !(c = '.' || c = 'e' || c = 'E')
  | [] => true

mutual

/-- Parse one JSON value, returning it with the unconsumed remainder. -/
def parseValue : Nat → List Char → Option (Json × List Char)
  | 0, _ => none
  | fuel + 1, s =>
    match skipWs s with
    | [] => none
    | c :: rest =>
      if c = lbrace then
        parseObjBody fuel rest
      else if c = '[' then
        parseArrBody fuel rest
      else if c = '"' then
        match parseJString rest with
        | some (cs, r) => some (Json.str cs, r)
        | none => none
      else if c = '-' then
        match parseDigits rest with
        | some (n, r) =>
          if noFloatTail r then some (Json.num (-(n : ℚ)), r) else none
        | none => none
      else if c.isDigit then
        match parseDigits (c :: rest) with
        | some (n, r) =>
          if noFloatTail r then some (Json.num (n : ℚ), r) else none
        | none => none
      else if (c :: rest).take 4 = "true".data then
        some (Json.bool true, (c :: rest).drop 4)
      else if (c :: rest).take 5 = "false".data then
        some (Json.bool false, (c :: rest).drop 5)
      else if (c :: rest).take 4 = "null".data then
        some (Json.null, (c :: rest).drop 4)
      else none

/-- Parse an object body after the opening brace. -/
def parseObjBody : Nat → List Char → Option (Json × List Char)
  | 0, _ => none
  | fuel + 1, s =>
    match skipWs s with
    | [] => none
    | c :: rest =>
      if c = rbrace then some (Json.obj [], rest)
      else if c = '"' then
        match parseJString rest with
        | some (k, r1) =>
          match skipWs r1 with
          | ':' :: r2 =>
            match parseValue fuel r2 with
            | some (v, r3) => parseObjRest fuel r3 [(k, v)]
            | none => none
          | _ => none
        | none => none
      else none

/-- Parse the remaining members of an object after the first one. -/
def parseObjRest : Nat → List Char → List (List Char × Json) → Option (Json × List Char)
  | 0, _, _ => none
  | fuel + 1, s, acc =>
    match skipWs s with
    | [] => none
    | c :: rest =>
      if c = rbrace then some (Json.obj acc, rest)
      else if c = ',' then
        match skipWs rest with
        | q :: r0 =>
          if q = '"' then
            match parseJString r0 with
            | some (k, r1) =>
              match skipWs r1 with
              | ':' :: r2 =>
                match parseValue fuel r2 with
                | some (v, r3) => parseObjRest fuel r3 (acc ++ [(k, v)])
                | none => none
              | _ => none
            | none => none
          else none
        | [] => none
      else none

/-- Parse an array body after the opening bracket. -/
def parseArrBody : Nat → List Char → Option (Json × List Char)
  | 0, _ => none
  | fuel + 1, s =>
    match skipWs s with
    | [] => none
    | c :: rest =>
      if c = ']' then some (Json.arr [], rest)
      else
        match parseValue fuel (c :: rest) with
        | some (v, r1) => parseArrRest fuel r1 [v]
        | none => none

/-- Parse the remaining items of an array after the first one. -/
def parseArrRest : Nat → List Char → List Json → Option (Json × List Char)
  | 0, _, _ => none
  | fuel + 1, s, acc =>
    match skipWs s with
    | [] => none
    | c :: rest =>
      if c = ']' then some (Json.arr acc, rest)
      else if c = ',' then
        match parseValue fuel rest with
        | some (v, r1) => parseArrRest fuel r1 (acc ++ [v])
        | none => none
      else none

end

/-- Model of Python json.loads on the JSON subset exercised in this
development (objects, arrays, strings without escapes, integers, booleans,
null); trailing non-whitespace makes it fail, as json.loads does. It is
used only to instantiate theorems that are generic in the decoder. -/
def jsonLoadsModel (s : List Char) : Option Json :=
  match parseValue (s.length + 2) s with
  | some (v, rest) => if (skipWs rest).isEmpty then some v else none
  | none => none

/-- Model of GPT4o.convert_llm_response_to_json_instructions
(src/app/models/gpt4o.py lines 132-146). The argument `value` is the
Python string llm_response.content[0].text.value; `loads` abstracts the
external json.loads, returning none where json.loads raises. The Python
code strips the text, locates the first brace with str.find and the last
closing brace with str.rfind (both -1 when absent), slices from
start_index to end_index + 1, strips the slice and decodes it inside a
try/except whose handler sets the result to the empty dict. -/
def convert_llm_response_to_json_instructions
    (loads : List Char → Option Json) (value : List Char) : Json :=
  match loads (pyStrip (pySlice (pyStrip value)
      (pyFind (pyStrip value) lbrace)
      (pyRfind (pyStrip value) rbrace + 1))) with
  | some json_response => json_response
  | none => Json.obj []

/-! Model of GPT4o.send_message_to_llm (src/app/models/gpt4o.py lines
46-77). The remote call create_and_poll returns a run object whose
status field the subsequent while loop inspects; the loop body never
refreshes the run, so the status it tests is a constant. Messages are
modelled as an abstract list, newest first, as the messages.list endpoint
returns them; response.data[0] is its head. -/

/-- Possible statuses of a remote assistant run. -/
inductive RunStatus where
  | completed : RunStatus
  | failed : RunStatus
  | queued : RunStatus
  | in_progress : RunStatus
  | requires_action : RunStatus
  | cancelled : RunStatus
  | expired : RunStatus
  | incomplete : RunStatus
deriving DecidableEq, Repr

/-- The run object as returned by create_and_poll: its status and its
last_error field (the failure reason, printed on the failed path). -/
structure Run where
  status : RunStatus
  last_error : Option (List Char)
deriving DecidableEq, Repr

/-- Observable effects of send_message_to_llm's polling loop: the
waiting printout, the fixed one-second sleep of each iteration, and the
printout of a failed run's required_action/last_error. -/
inductive SendEffect where
  | printWaiting (status : RunStatus) : SendEffect
  | sleepOne : SendEffect
  | printFailed (reason : Option (List Char)) : SendEffect
deriving DecidableEq, Repr

/-- Value returned by send_message_to_llm: the newest message of the
conversation (response.data[0]) on the completed path, Python None on
the failed path, or no return at all when the loop cannot exit within
the given fuel. -/
inductive SendResult (α : Type) where
  | newestReply (m : Option α) : SendResult α
  | pyNone : SendResult α
  | neverReturns : SendResult α
deriving DecidableEq, Repr

/-- Loop of send_message_to_llm: while run.status is not completed,
print, sleep one second, and return None if run.status is failed. The
run is never re-fetched inside the loop, so a status that is neither
completed nor failed loops forever; fuel bounds the unrolling and
neverReturns marks exhaustion. After the loop, the completed branch
fetches the message list and returns its newest element. -/
def sendPollLoop {α : Type} (run : Run) (data : List α) :
    Nat → List SendEffect × SendResult α
  | 0 => ([], SendResult.neverReturns)
  | fuel + 1 =>
    if run.status = RunStatus.completed then
      ([], SendResult.newestReply data.head?)
    else
      let iter := [SendEffect.printWaiting run.status, SendEffect.sleepOne]
      if run.status = RunStatus.failed then
        (iter ++ [SendEffect.printFailed run.last_error], SendResult.pyNone)
      else
        let next := sendPollLoop run data fuel
        (iter ++ next.fst, next.snd)

/-- Model of GPT4o.send_message_to_llm given the run returned by
create_and_poll and the message list (newest first) that messages.list
would return after completion. -/
def send_message_to_llm {α : Type} (run : Run) (data : List α)
    (fuel : Nat) : List SendEffect × SendResult α :=
  sendPollLoop run data fuel

/-! Model of the Interpreter class (src/app/interpreter.py). The
module-level pyautogui import may fail, leaving the global pyautogui as
None; __init__ sets headless_mode to True exactly when pyautogui is
None, so the embedding carries one Option Driver value for both. The
automation driver and the OS are external capabilities: driver calls
are recorded as effects, and the outcomes of the two subprocess.Popen
calls are supplied by an environment parameter, since those can fail
for OS-level reasons outside the code. -/

/-- Python exceptions distinguished by this development. -/
inductive PyError where
  | nameError (missing : List Char) : PyError
  | typeError : PyError
deriving DecidableEq, Repr

/-- The pyautogui module as a capability: which attribute names it has
(hasattr is the only introspection the interpreter performs on it). -/
structure Driver where
  hasAttr : List Char → Bool

/-- Outcomes of the OS-level process launches: for each Popen call, the
exception it raises, if any. -/
structure OsEnv where
  popenShellError : Option Json → Option PyError
  popenBashError : Option Json → Option PyError

/-- Messages put on the status queue, one constructor per put site,
carrying the data the corresponding f-string interpolates. -/
inductive StatusMsg where
  | justification (j : Option Json) : StatusMsg
  | openingUrl (url : Option Json) : StatusMsg
  | openingApp (app_name : Option Json) : StatusMsg
  | runningCmd (command : Option Json) : StatusMsg
  | errorOpeningApp (app_name : Option Json) (e : PyError) : StatusMsg
  | errorRunningCmd (command : Option Json) (e : PyError) : StatusMsg
  | problemExecuting (e : PyError) : StatusMsg
  | receivedJson (fn : List Char) (params : List (List Char × Json))
      (j : Option Json) : StatusMsg
  | extracted (fn : List Char) (params : List (List Char × Json)) : StatusMsg

/-- Messages emitted through the logging module. -/
inductive LogMsg where
  | skipGui (fn : List Char) : LogMsg

/-- Observable effects of the interpreter, in program order: stdout
prints, status-queue puts, log warnings, the time.sleep call, the two
subprocess.Popen shapes, and calls into the automation driver with
positional arguments (possibly Python None) and keyword arguments. -/
inductive Effect where
  | printNowPerforming (fn : List Char) (params : List (List Char × Json))
      (j : Option Json) : Effect
  | statusPut (m : StatusMsg) : Effect
  | logWarning (m : LogMsg) : Effect
  | osSleep (secs : Json) : Effect
  | popenShell (app_name : Option Json) : Effect
  | popenBash (command : Option Json) : Effect
  | driverCall (name : List Char) (args : List (Option Json))
      (kwargs : List (List Char × Json)) : Effect
  | printNoSuchFunction (fn : List Char) : Effect

/-- Result of an embedded interpreter method: the effects it performed
and the exception escaping it, if any. -/
structure ExecOut where
  effects : List Effect
  err : Option PyError

/-- Model of Python iteration over a JSON-derived value: lists yield
their elements, strings their characters; other values raise TypeError. -/
def pyIterate : Json → Except PyError (List Json)
  | Json.arr xs => Except.ok xs
  | Json.str s => Except.ok (s.map (fun c => Json.str [c]))
  | _ => Except.error PyError.typeError

/-- Model of Interpreter.open_url_in_browser (lines 119-143). Line 126
puts the opening-URL message on the status queue; line 128 evaluates
Settings(), but interpreter.py never imports Settings, so that call
raises NameError and the remaining lines (default_browser dispatch,
webbrowser.open) are unreachable. -/
def open_url_in_browser (url : Option Json) : ExecOut :=
  { effects := [Effect.statusPut (StatusMsg.openingUrl url)]
  , err := some (PyError.nameError ("Settings".data)) }

/-- Model of Interpreter.open_application (lines 145-156): put the
opening-application message, then subprocess.Popen(app_name, shell=True)
inside try/except; on exception, put an error message instead of
propagating it. -/
def open_application (env : OsEnv) (app_name : Option Json) : ExecOut :=
  match env.popenShellError app_name with
  | none =>
    { effects := [Effect.statusPut (StatusMsg.openingApp app_name),
                  Effect.popenShell app_name]
    , err := none }
  | some e =>
    { effects := [Effect.statusPut (StatusMsg.openingApp app_name),
                  Effect.statusPut (StatusMsg.errorOpeningApp app_name e)]
    , err := none }

/-- Model of Interpreter.run_terminal_command (lines 158-169): put the
running-command message, then Popen of a bash -c invocation inside
try/except; on exception, put an error message instead of propagating. -/
def run_terminal_command (env : OsEnv) (command : Option Json) : ExecOut :=
  match env.popenBashError command with
  | none =>
    { effects := [Effect.statusPut (StatusMsg.runningCmd command),
                  Effect.popenBash command]
    , err := none }
  | some e =>
    { effects := [Effect.statusPut (StatusMsg.runningCmd command),
                  Effect.statusPut (StatusMsg.errorRunningCmd command e)]
    , err := none }

/-- Warm-up call at the top of execute_function (lines 77-78): whenever
pyautogui is available, press the command key with interval 0.2 before
dispatching, regardless of the requested function. -/
def warmup (pag : Option Driver) : List Effect :=
  match pag with
  | some _ => [Effect.driverCall ("press".data)
      [some (Json.str ("command".data))]
      [(("interval".data), Json.num (1/5 : ℚ))]]
  | none => []

/-- Inner elif chain of execute_function guarded by
`pyautogui is not None and hasattr(pyautogui, function_name)` (lines
93-115), factored over the available driver: the write branch prefers
the truthy one of the string/text parameters (Python `or`) with default
interval 0.1, the press branch iterates a keys list (presses default 1,
interval default 0.2) or presses a single key, the hotkey branch unpacks
the keys list into separate variadic arguments, and any other attribute
is called with the parameters dict as keyword arguments. When hasattr
fails, control reaches the chain's final else (line 117), a stdout
printout. -/
def execute_driver (d : Driver) (function_name : List Char)
    (parameters : List (List Char × Json)) : ExecOut :=
  if d.hasAttr function_name then
    if function_name = "write".data ∧
        (hasKey parameters ("string".data) || hasKey parameters ("text".data)) then
      let string_to_write :=
        pyOr (dictGet parameters ("string".data)) (dictGet parameters ("text".data))
      let interval := (dictGet parameters ("interval".data)).getD (Json.num (1/10 : ℚ))
      { effects := [Effect.driverCall ("write".data) [string_to_write]
          [(("interval".data), interval)]]
      , err := none }
    else if function_name = "press".data ∧ hasKey parameters ("keys".data) then
      let keys := (dictGet parameters ("keys".data)).getD (Json.arr [])
      let presses := (dictGet parameters ("presses".data)).getD (Json.num 1)
      let interval := (dictGet parameters ("interval".data)).getD (Json.num (1/5 : ℚ))
      match pyIterate keys with
      | Except.ok ks =>
        { effects := ks.map (fun key => Effect.driverCall ("press".data)
            [some key] [(("presses".data), presses), (("interval".data), interval)])
        , err := none }
      | Except.error e => { effects := [], err := some e }
    else if function_name = "press".data ∧ hasKey parameters ("key".data) then
      { effects := [Effect.driverCall ("press".data)
          [dictGet parameters ("key".data)] []]
      , err := none }
    else if function_name = "hotkey".data ∧ hasKey parameters ("keys".data) then
      let keys := (dictGet parameters ("keys".data)).getD (Json.arr [])
      match pyIterate keys with
      | Except.ok ks =>
        { effects := [Effect.driverCall ("hotkey".data) (ks.map some) []]
        , err := none }
      | Except.error e => { effects := [], err := some e }
    else
      { effects := [Effect.driverCall function_name [] parameters]
      , err := none }
  else { effects := [Effect.printNoSuchFunction function_name], err := none }

/-- Dispatch chain of execute_function after the warm-up (lines 80-117):
the four specially named functions, then the driver chain when pyautogui
is available (a missing driver, like a missing attribute, ends in the
no-such-function printout of line 117). The sleep branch uses the
Python truthiness of parameters.get("secs"). -/
def execute_dispatch (env : OsEnv) (pag : Option Driver)
    (function_name : List Char)
    (parameters : List (List Char × Json)) : ExecOut :=
  if function_name = "sleep".data then
    match dictGet parameters ("secs".data) with
    | some secs =>
      if jsonTruthy secs then { effects := [Effect.osSleep secs], err := none }
      else { effects := [], err := none }
    | none => { effects := [], err := none }
  else if function_name = "open_url".data then
    open_url_in_browser (dictGet parameters ("url".data))
  else if function_name = "open_application".data then
    open_application env (dictGet parameters ("name".data))
  else if function_name = "run_terminal_command".data then
    run_terminal_command env (dictGet parameters ("command".data))
  else
    match pag with
    | some d => execute_driver d function_name parameters
    | none => { effects := [Effect.printNoSuchFunction function_name], err := none }

/-- Model of Interpreter.execute_function (lines 70-117): the warm-up
press whenever pyautogui is available, followed by the dispatch chain;
the effects are those of the warm-up and then those of the chosen
branch, and an exception escaping the branch escapes execute_function. -/
def execute_function (env : OsEnv) (pag : Option Driver)
    (function_name : List Char)
    (parameters : List (List Char × Json)) : ExecOut :=
  { effects := warmup pag ++
      (execute_dispatch env pag function_name parameters).effects
  , err := (execute_dispatch env pag function_name parameters).err }

/-- A structured instruction as process_command extracts it from the
incoming dict: json_command is subscripted for the required function
key, while parameters and human_readable_justification use dict.get, so
the empty list and none here represent absent keys. -/
structure Command where
  function : List Char
  parameters : List (List Char × Json)
  human_readable_justification : Option Json

/-- The gui_functions list of process_command (line 56). -/
def gui_functions : List (List Char) :=
  ["click".data, "moveTo".data, "typewrite".data, "write".data,
   "press".data, "hotkey".data]

/-- Result of process_command: the returned boolean and the effects. -/
structure ProcOut where
  success : Bool
  effects : List Effect

/-- Model of Interpreter.process_command (lines 42-68): print the
now-performing line, put the justification on the status queue, then
either simulate a GUI function in headless mode (returning True after a
log warning) or run execute_function inside try/except, putting three
diagnostic status messages and returning False when it raises. -/
def process_command (env : OsEnv) (pag : Option Driver)
    (json_command : Command) : ProcOut :=
  let function_name := json_command.function
  let parameters := json_command.parameters
  let human_readable_justification := json_command.human_readable_justification
  let pre := [Effect.printNowPerforming function_name parameters human_readable_justification,
              Effect.statusPut (StatusMsg.justification human_readable_justification)]
  if pag.isNone ∧ function_name ∈ gui_functions then
    { success := true
    , effects := pre ++ [Effect.logWarning (LogMsg.skipGui function_name)] }
  else
    let r := execute_function env pag function_name parameters
    match r.err with
    | none => { success := true, effects := pre ++ r.effects }
    | some e =>
      { success := false
      , effects := pre ++ r.effects ++
          [Effect.statusPut (StatusMsg.problemExecuting e),
           Effect.statusPut (StatusMsg.receivedJson function_name parameters
             human_readable_justification),
           Effect.statusPut (StatusMsg.extracted function_name parameters)] }

/-- Model of Interpreter.process_commands (lines 30-40): process the
list in order, ending early with False at the first failing command. -/
def process_commands (env : OsEnv) (pag : Option Driver) :
    List Command → Bool × List Effect
  | [] => (true, [])
  | command :: rest =>
    let r := process_command env pag command
    if r.success then
      let next := process_commands env pag rest
      (next.fst, r.effects ++ next.snd)
    else (false, r.effects)

/-- Parameters payload carried by a status message, when any. -/
def statusMsgParams : StatusMsg → Option (List (List Char × Json))
  | StatusMsg.receivedJson _ p _ => some p
  | StatusMsg.extracted _ p => some p
  | _ => none

/-- Parameters payload of an effect when it is a status-queue message. -/
def statusParamsOfEffect : Effect → Option (List (List Char × Json))
  | Effect.statusPut m => statusMsgParams m
  | _ => none

/-- Whether an effect touches the operating system or the automation
driver (anything beyond printing, logging and the status queue). -/
def isOsEffect : Effect → Bool
  | Effect.osSleep _ => true
  | Effect.popenShell _ => true
  | Effect.popenBash _ => true
  | Effect.driverCall _ _ _ => true
  | _ => false

/-- Environment in which both subprocess.Popen call sites succeed. -/
def envNoErr : OsEnv := ⟨fun _ => none, fun _ => none⟩

/-- Driver exposing exactly the GUI attribute names this repository
dispatches on. -/
def drvStd : Driver := ⟨fun s => decide (s ∈ gui_functions)⟩

/-- Concrete instruction naming the unsupported function teleport. -/
def teleportCmd : Command :=
  ⟨"teleport".data, [], some (Json.str ("why".data))⟩

/-- Concrete open_url instruction for http example.com. -/
def openUrlCmd : Command :=
  ⟨"open_url".data, [(("url".data), Json.str ("http://example.com".data))], none⟩

/-- Concrete click instruction with coordinate parameters. -/
def clickCmd : Command :=
  ⟨"click".data, [(("x".data), Json.num 5), (("y".data), Json.num 6)],
   some (Json.str ("click it".data))⟩

/-- Concrete sleep instruction for two seconds. -/
def sleepCmd : Command :=
  ⟨"sleep".data, [(("secs".data), Json.num 2)], none⟩

/-- C10: whenever the automation driver is available, every call to
execute_function first presses the command key (interval 0.2) before
dispatching the requested function, whatever that function is - also
for sleep, open_url, open_application and run_terminal_command - so
every executed instruction touches OS keyboard state. -/
theorem execute_function_always_warms_up (env : OsEnv) (d : Driver)
    (function_name : List Char) (parameters : List (List Char × Json)) :
    (execute_function env (some d) function_name parameters).effects.head? =
      some (Effect.driverCall ("press".data)
        [some (Json.str ("command".data))]
        [(("interval".data), Json.num (1/5 : ℚ))]) :=
  rfl

/-- C6: for every instruction, process_command prints the now-performing
line and then puts the justification (the raw get result, which is the
Python None when the key is absent) on the status queue as its very
first two effects, before any execution effect, in every branch -
including the ones where execution subsequently fails. -/
theorem process_command_puts_justification_first (env : OsEnv)
    (pag : Option Driver) (json_command : Command) :
    (process_command env pag json_command).effects.take 2 =
      [Effect.printNowPerforming json_command.function json_command.parameters
         json_command.human_readable_justification,
       Effect.statusPut (StatusMsg.justification
         json_command.human_readable_justification)] := by
  by_cases hgui : (pag.isNone = true ∧ json_command.function ∈ gui_functions)
  · simp only [process_command, if_pos hgui]
    rfl
  · simp only [process_command, if_neg hgui]
    cases herr : (execute_function env pag json_command.function
        json_command.parameters).err with
    | none => rfl
    | some e => rfl

/-- C3 counterexample: the instruction naming the unsupported function
teleport is processed without failing - process_command returns True in
live mode, and the whole trace is the now-performing printout, the
justification put, the warm-up press and a stdout no-such-function
printout: no failure, no status message naming the instruction. -/
theorem process_command_teleport_reports_success :
    (process_command envNoErr (some drvStd) teleportCmd).success = true ∧
    (process_command envNoErr (some drvStd) teleportCmd).effects =
      [Effect.printNowPerforming ("teleport".data) []
         (some (Json.str ("why".data))),
       Effect.statusPut (StatusMsg.justification (some (Json.str ("why".data)))),
       Effect.driverCall ("press".data) [some (Json.str ("command".data))]
         [(("interval".data), Json.num (1/5 : ℚ))],
       Effect.printNoSuchFunction ("teleport".data)] :=
  ⟨rfl, rfl⟩

/-- Helper: with a function name that is none of the four special names
and not an attribute of an available driver, the dispatch chain reaches
the final stdout printout and raises nothing. -/
theorem execute_dispatch_unknown (env : OsEnv) (pag : Option Driver)
    (fn : List Char) (params : List (List Char × Json))
    (hs : fn ≠ "sleep".data) (hu : fn ≠ "open_url".data)
    (ha : fn ≠ "open_application".data) (hr : fn ≠ "run_terminal_command".data)
    (hd : ∀ d, pag = some d → d.hasAttr fn = false) :
    execute_dispatch env pag fn params =
      { effects := [Effect.printNoSuchFunction fn], err := none } := by
  unfold execute_dispatch
  rw [if_neg hs, if_neg hu, if_neg ha, if_neg hr]
  cases pag with
  | none => rfl
  | some d =>
    show execute_driver d fn params = _
    have hfalse : ¬(d.hasAttr fn = true) := by simp [hd d rfl]
    unfold execute_driver
    rw [if_neg hfalse]

/-- C3 amended: for every instruction whose function name is not a
recognized function (sleep, open_url, open_application,
run_terminal_command, or an attribute of the available driver) and not
in the headless gui_functions list, process_command reports success:
execute_function only prints a no-such-function diagnostic to stdout
after the warm-up, no exception is raised, the returned value is True,
and no status message beyond the justification is emitted. -/
theorem process_command_unknown_function_succeeds (env : OsEnv)
    (pag : Option Driver) (json_command : Command)
    (h1 : json_command.function ∉
      [("sleep".data), ("open_url".data), ("open_application".data),
       ("run_terminal_command".data)])
    (h2 : json_command.function ∉ gui_functions)
    (h3 : ∀ d, pag = some d → d.hasAttr json_command.function = false) :
    (process_command env pag json_command).success = true ∧
    (process_command env pag json_command).effects =
      [Effect.printNowPerforming json_command.function json_command.parameters
         json_command.human_readable_justification,
       Effect.statusPut (StatusMsg.justification
         json_command.human_readable_justification)] ++
      warmup pag ++ [Effect.printNoSuchFunction json_command.function] := by
  simp only [List.mem_cons, List.mem_singleton, not_or] at h1
  obtain ⟨hs, hu, ha, hr, -⟩ := h1
  have hgui : ¬(pag.isNone = true ∧ json_command.function ∈ gui_functions) :=
    fun hcon => h2 hcon.2
  have hdisp := execute_dispatch_unknown env pag json_command.function
    json_command.parameters hs hu ha hr h3
  refine ⟨?_, ?_⟩ <;>
    simp [process_command, if_neg hgui, execute_function, hdisp]

/-- C3 amended, witnessed at the teleport instruction in live mode. -/
theorem process_command_unknown_function_succeeds_witness :
    (process_command envNoErr (some drvStd) teleportCmd).success = true ∧
    (process_command envNoErr (some drvStd) teleportCmd).effects =
      [Effect.printNowPerforming teleportCmd.function teleportCmd.parameters
         teleportCmd.human_readable_justification,
       Effect.statusPut (StatusMsg.justification
         teleportCmd.human_readable_justification)] ++
      warmup (some drvStd) ++
      [Effect.printNoSuchFunction teleportCmd.function] :=
  process_command_unknown_function_succeeds envNoErr (some drvStd) teleportCmd
    (by decide) (by decide)
    (fun d hd => by cases hd; decide)

/-- C5 counterexample: in headless mode a click instruction is processed
successfully and without touching the OS, but the dispatch-time message
is a log warning naming only the skipped function: no status message in
the whole trace carries the instruction's parameters (the only status
put is the justification), so the claimed simulated-action status
message containing the key parameters does not exist. -/
theorem process_command_headless_click_no_param_message :
    (process_command envNoErr none clickCmd).success = true ∧
    (process_command envNoErr none clickCmd).effects =
      [Effect.printNowPerforming ("click".data)
         [(("x".data), Json.num 5), (("y".data), Json.num 6)]
         (some (Json.str ("click it".data))),
       Effect.statusPut (StatusMsg.justification (some (Json.str ("click it".data)))),
       Effect.logWarning (LogMsg.skipGui ("click".data))] ∧
    (process_command envNoErr none clickCmd).effects.filterMap
      statusParamsOfEffect = [] :=
  ⟨rfl, rfl, rfl⟩

/-- C5 amended: dispatching a GUI-primitive instruction in headless mode
returns success and performs no OS or driver call; the trace is exactly
the now-performing printout, the justification status put, and one log
warning naming the skipped function (without its parameters). -/
theorem process_command_headless_gui_simulates (env : OsEnv)
    (json_command : Command)
    (h : json_command.function ∈ gui_functions) :
    (process_command env none json_command).success = true ∧
    (process_command env none json_command).effects =
      [Effect.printNowPerforming json_command.function json_command.parameters
         json_command.human_readable_justification,
       Effect.statusPut (StatusMsg.justification
         json_command.human_readable_justification),
       Effect.logWarning (LogMsg.skipGui json_command.function)] ∧
    ∀ e ∈ (process_command env none json_command).effects,
      isOsEffect e = false := by
  have hgui : ((none : Option Driver).isNone = true ∧
      json_command.function ∈ gui_functions) := ⟨rfl, h⟩
  refine ⟨?_, ?_, ?_⟩
  · simp only [process_command, if_pos hgui]
  · simp only [process_command, if_pos hgui]
    rfl
  · simp only [process_command, if_pos hgui]
    intro e he
    simp only [List.cons_append, List.nil_append, List.mem_cons,
      List.not_mem_nil, or_false] at he
    rcases he with rfl | rfl | rfl <;> rfl

/-- C5 amended, witnessed at the headless click instruction. -/
theorem process_command_headless_gui_simulates_witness :
    (process_command envNoErr none clickCmd).success = true ∧
    (process_command envNoErr none clickCmd).effects =
      [Effect.printNowPerforming clickCmd.function clickCmd.parameters
         clickCmd.human_readable_justification,
       Effect.statusPut (StatusMsg.justification
         clickCmd.human_readable_justification),
       Effect.logWarning (LogMsg.skipGui clickCmd.function)] ∧
    ∀ e ∈ (process_command envNoErr none clickCmd).effects,
      isOsEffect e = false :=
  process_command_headless_gui_simulates envNoErr clickCmd (by decide)

/-- C7 counterexample: with both a string and a text parameter present
but the string value falsy (the empty string), the write instruction
types the text value rather than the present string value: the
Python-or normalization prefers string only when its value is truthy,
not whenever the key is present. -/
theorem execute_function_write_falsy_string_uses_text :
    (execute_function envNoErr (some drvStd) ("write".data)
        [(("string".data), Json.str []),
         (("text".data), Json.str ("hi".data))]).effects =
      [Effect.driverCall ("press".data) [some (Json.str ("command".data))]
         [(("interval".data), Json.num (1/5 : ℚ))],
       Effect.driverCall ("write".data) [some (Json.str ("hi".data))]
         [(("interval".data), Json.num (1/10 : ℚ))]] ∧
    some (Json.str ("hi".data)) ≠ some (Json.str ([] : List Char)) :=
  ⟨rfl, fun hcon => by
    injection hcon with h1
    injection h1 with h2
    exact absurd h2 (by decide)⟩

/-- Helper: dispatch reaches the driver chain for a name that is none of
the four specially handled ones, when a driver is available. -/
theorem execute_dispatch_driver (env : OsEnv) (d : Driver)
    (fn : List Char) (params : List (List Char × Json))
    (hs : fn ≠ "sleep".data) (hu : fn ≠ "open_url".data)
    (ha : fn ≠ "open_application".data)
    (hr : fn ≠ "run_terminal_command".data) :
    execute_dispatch env (some d) fn params = execute_driver d fn params := by
  unfold execute_dispatch
  rw [if_neg hs, if_neg hu, if_neg ha, if_neg hr]

/-- Helper: the write branch of the driver chain. -/
theorem execute_driver_write (d : Driver) (params : List (List Char × Json))
    (hattr : d.hasAttr ("write".data) = true)
    (hkey : (hasKey params ("string".data) || hasKey params ("text".data)) = true) :
    execute_driver d ("write".data) params =
      { effects := [Effect.driverCall ("write".data)
          [pyOr (dictGet params ("string".data)) (dictGet params ("text".data))]
          [(("interval".data),
            (dictGet params ("interval".data)).getD (Json.num (1/10 : ℚ)))]]
      , err := none } := by
  unfold execute_driver
  rw [if_pos hattr, if_pos ⟨rfl, hkey⟩]

/-- Helper: the press branch of the driver chain with a keys list. -/
theorem execute_driver_press_keys (d : Driver)
    (params : List (List Char × Json)) (ks : List Json)
    (hattr : d.hasAttr ("press".data) = true)
    (hkeys : dictGet params ("keys".data) = some (Json.arr ks))
    (hhas : hasKey params ("keys".data) = true) :
    execute_driver d ("press".data) params =
      { effects := ks.map (fun key => Effect.driverCall ("press".data)
          [some key]
          [(("presses".data), (dictGet params ("presses".data)).getD (Json.num 1)),
           (("interval".data),
            (dictGet params ("interval".data)).getD (Json.num (1/5 : ℚ)))])
      , err := none } := by
  unfold execute_driver
  rw [if_pos hattr,
      if_neg (fun hcon => absurd hcon.1 (by decide)),
      if_pos ⟨rfl, hhas⟩, hkeys]
  rfl

/-- Helper: the press branch of the driver chain with a single key. -/
theorem execute_driver_press_key (d : Driver)
    (params : List (List Char × Json))
    (hattr : d.hasAttr ("press".data) = true)
    (hnokeys : hasKey params ("keys".data) = false)
    (hkey : hasKey params ("key".data) = true) :
    execute_driver d ("press".data) params =
      { effects := [Effect.driverCall ("press".data)
          [dictGet params ("key".data)] []]
      , err := none } := by
  unfold execute_driver
  rw [if_pos hattr,
      if_neg (fun hcon => absurd hcon.1 (by decide)),
      if_neg (fun hcon => by
        rw [hnokeys] at hcon
        exact Bool.false_ne_true hcon.2),
      if_pos ⟨rfl, hkey⟩]

/-- Helper: the hotkey branch of the driver chain. -/
theorem execute_driver_hotkey (d : Driver)
    (params : List (List Char × Json)) (ks : List Json)
    (hattr : d.hasAttr ("hotkey".data) = true)
    (hkeys : dictGet params ("keys".data) = some (Json.arr ks))
    (hhas : hasKey params ("keys".data) = true) :
    execute_driver d ("hotkey".data) params =
      { effects := [Effect.driverCall ("hotkey".data) (ks.map some) []]
      , err := none } := by
  unfold execute_driver
  rw [if_pos hattr,
      if_neg (fun hcon => absurd hcon.1 (by decide)),
      if_neg (fun hcon => absurd hcon.1 (by decide)),
      if_neg (fun hcon => absurd hcon.1 (by decide)),
      if_pos ⟨rfl, hhas⟩, hkeys]
  rfl

/-- C7 amended: the executor normalizes parameter aliases as follows.
A write instruction with a string or text key types the Python-or of the
two values, so string is preferred exactly when its value is truthy (a
falsy string value falls back to text); a press instruction with a keys
list presses each listed key in turn in separate driver calls, and with
only a key parameter presses that single key; a hotkey instruction's
keys list is expanded into separate variadic arguments of one driver
hotkey call, not passed as a single collection. -/
theorem execute_function_normalizes_parameters (env : OsEnv) (d : Driver) :
    (∀ params, d.hasAttr ("write".data) = true →
      (hasKey params ("string".data) || hasKey params ("text".data)) = true →
      (execute_function env (some d) ("write".data) params).effects =
        warmup (some d) ++ [Effect.driverCall ("write".data)
          [pyOr (dictGet params ("string".data)) (dictGet params ("text".data))]
          [(("interval".data),
            (dictGet params ("interval".data)).getD (Json.num (1/10 : ℚ)))]]) ∧
    (∀ a b, pyTruthy a = true → pyOr a b = a) ∧
    (∀ a b, pyTruthy a = false → pyOr a b = b) ∧
    (∀ params ks, d.hasAttr ("press".data) = true →
      dictGet params ("keys".data) = some (Json.arr ks) →
      hasKey params ("keys".data) = true →
      (execute_function env (some d) ("press".data) params).effects =
        warmup (some d) ++ ks.map (fun key => Effect.driverCall ("press".data)
          [some key]
          [(("presses".data), (dictGet params ("presses".data)).getD (Json.num 1)),
           (("interval".data),
            (dictGet params ("interval".data)).getD (Json.num (1/5 : ℚ)))])) ∧
    (∀ params, d.hasAttr ("press".data) = true →
      hasKey params ("keys".data) = false →
      hasKey params ("key".data) = true →
      (execute_function env (some d) ("press".data) params).effects =
        warmup (some d) ++ [Effect.driverCall ("press".data)
          [dictGet params ("key".data)] []]) ∧
    (∀ params ks, d.hasAttr ("hotkey".data) = true →
      dictGet params ("keys".data) = some (Json.arr ks) →
      hasKey params ("keys".data) = true →
      (execute_function env (some d) ("hotkey".data) params).effects =
        warmup (some d) ++
          [Effect.driverCall ("hotkey".data) (ks.map some) []]) := by
  refine ⟨?_, ?_, ?_, ?_, ?_, ?_⟩
  · intro params hattr hkey
    rw [execute_function, execute_dispatch_driver env d ("write".data) params
          (by decide) (by decide) (by decide) (by decide),
        execute_driver_write d params hattr hkey]
  · intro a b h
    rw [pyOr, if_pos h]
  · intro a b h
    rw [pyOr, if_neg (by simp [h])]
  · intro params ks hattr hkeys hhas
    rw [execute_function, execute_dispatch_driver env d ("press".data) params
          (by decide) (by decide) (by decide) (by decide),
        execute_driver_press_keys d params ks hattr hkeys hhas]
  · intro params hattr hnokeys hkey
    rw [execute_function, execute_dispatch_driver env d ("press".data) params
          (by decide) (by decide) (by decide) (by decide),
        execute_driver_press_key d params hattr hnokeys hkey]
  · intro params ks hattr hkeys hhas
    rw [execute_function, execute_dispatch_driver env d ("hotkey".data) params
          (by decide) (by decide) (by decide) (by decide),
        execute_driver_hotkey d params ks hattr hkeys hhas]

/-- C7 amended, witnessed at concrete write, press and hotkey
instructions against the standard driver. -/
theorem execute_function_normalizes_parameters_witness :
    ((execute_function envNoErr (some drvStd) ("write".data)
        [(("string".data), Json.str ("ok".data))]).effects =
      warmup (some drvStd) ++ [Effect.driverCall ("write".data)
        [pyOr (dictGet [(("string".data), Json.str ("ok".data))] ("string".data))
              (dictGet [(("string".data), Json.str ("ok".data))] ("text".data))]
        [(("interval".data),
          (dictGet [(("string".data), Json.str ("ok".data))] ("interval".data)).getD
            (Json.num (1/10 : ℚ)))]]) ∧
    pyOr (some (Json.str ("ok".data))) none = some (Json.str ("ok".data)) ∧
    pyOr (some (Json.str [])) (some (Json.str ("hi".data))) =
      some (Json.str ("hi".data)) ∧
    ((execute_function envNoErr (some drvStd) ("press".data)
        [(("keys".data), Json.arr [Json.str ("a".data), Json.str ("b".data)])]).effects =
      warmup (some drvStd) ++
        [Json.str ("a".data), Json.str ("b".data)].map
          (fun key => Effect.driverCall ("press".data) [some key]
            [(("presses".data), Json.num 1),
             (("interval".data), Json.num (1/5 : ℚ))])) ∧
    ((execute_function envNoErr (some drvStd) ("press".data)
        [(("key".data), Json.str ("x".data))]).effects =
      warmup (some drvStd) ++ [Effect.driverCall ("press".data)
        [some (Json.str ("x".data))] []]) ∧
    ((execute_function envNoErr (some drvStd) ("hotkey".data)
        [(("keys".data), Json.arr [Json.str ("ctrl".data), Json.str ("c".data)])]).effects =
      warmup (some drvStd) ++
        [Effect.driverCall ("hotkey".data)
          [some (Json.str ("ctrl".data)), some (Json.str ("c".data))] []]) := by
  obtain ⟨hw, hot, hof, hpk, hp1, hhk⟩ :=
    execute_function_normalizes_parameters envNoErr drvStd
  refine ⟨hw _ (by decide) (by decide),
          hot _ none rfl,
          hof _ _ rfl,
          ?_,
          hp1 _ (by decide) (by decide) (by decide),
          ?_⟩
  · have := hpk [(("keys".data), Json.arr [Json.str ("a".data), Json.str ("b".data)])]
      [Json.str ("a".data), Json.str ("b".data)] (by decide) rfl (by decide)
    simpa using this
  · have := hhk [(("keys".data), Json.arr [Json.str ("ctrl".data), Json.str ("c".data)])]
      [Json.str ("ctrl".data), Json.str ("c".data)] (by decide) rfl (by decide)
    simpa using this

/-- C4 at the failing input: an open_url instruction always fails the
step. open_url_in_browser first puts its opening-URL status message and
then raises NameError, because interpreter.py uses Settings without
importing it; nothing inside the executor catches this, so the
exception reaches process_command's handler, three diagnostic status
messages follow, and the command reports False - the failure is
propagated as a fatal step failure, unlike for open_application and
run_terminal_command, and no OS-level URL-opening effect ever occurs. -/
theorem process_command_open_url_always_fails :
    (process_command envNoErr none openUrlCmd).success = false ∧
    (process_command envNoErr none openUrlCmd).effects =
      [Effect.printNowPerforming ("open_url".data)
         [(("url".data), Json.str ("http://example.com".data))] none,
       Effect.statusPut (StatusMsg.justification none),
       Effect.statusPut (StatusMsg.openingUrl
         (some (Json.str ("http://example.com".data)))),
       Effect.statusPut (StatusMsg.problemExecuting
         (PyError.nameError ("Settings".data))),
       Effect.statusPut (StatusMsg.receivedJson ("open_url".data)
         [(("url".data), Json.str ("http://example.com".data))] none),
       Effect.statusPut (StatusMsg.extracted ("open_url".data)
         [(("url".data), Json.str ("http://example.com".data))])] ∧
    (process_command envNoErr none openUrlCmd).effects.filter isOsEffect = [] :=
  ⟨rfl, rfl, rfl⟩

/-- Helper: the returned boolean of process_commands is the conjunction
of the per-command successes. -/
theorem process_commands_all_eq (env : OsEnv) (pag : Option Driver) :
    ∀ json_commands : List Command,
      (process_commands env pag json_commands).fst =
        json_commands.all (fun c => (process_command env pag c).success)
  | [] => rfl
  | c :: rest => by
    simp only [process_commands, List.all_cons]
    by_cases h : (process_command env pag c).success = true
    · rw [if_pos h, h, Bool.true_and]
      exact process_commands_all_eq env pag rest
    · rw [if_neg h]
      rw [Bool.not_eq_true] at h
      rw [h, Bool.false_and]

/-- Helper: when every command succeeds, process_commands returns True
and the concatenation of the per-command traces in list order. -/
theorem process_commands_all_success (env : OsEnv) (pag : Option Driver) :
    ∀ json_commands : List Command,
      (∀ c ∈ json_commands, (process_command env pag c).success = true) →
      process_commands env pag json_commands =
        (true, (json_commands.map
          (fun c => (process_command env pag c).effects)).flatten)
  | [], _ => rfl
  | c :: rest, hall => by
    have hc := hall c (List.mem_cons_self c rest)
    have hrest := process_commands_all_success env pag rest
      (fun p hp => hall p (List.mem_cons_of_mem c hp))
    simp only [process_commands, if_pos hc, hrest, List.map_cons, List.flatten_cons]

/-- Helper: processing stops at the first failing command: the commands
before it are processed in order, the failing one is processed, False is
returned, and no later command contributes anything. -/
theorem process_commands_stops_at_failure (env : OsEnv) (pag : Option Driver) :
    ∀ pre : List Command, ∀ c : Command, ∀ post : List Command,
      (∀ p ∈ pre, (process_command env pag p).success = true) →
      (process_command env pag c).success = false →
      process_commands env pag (pre ++ c :: post) =
        (false, (pre.map (fun p => (process_command env pag p).effects)).flatten ++
          (process_command env pag c).effects)
  | [], c, post, _, hc => by
    simp only [List.nil_append, process_commands, hc, List.map_nil,
      Bool.false_eq_true, if_false, List.flatten_nil]
  | p :: pre, c, post, hpre, hc => by
    have hp := hpre p (List.mem_cons_self p pre)
    have ih := process_commands_stops_at_failure env pag pre c post
      (fun q hq => hpre q (List.mem_cons_of_mem p hq)) hc
    simp only [List.cons_append, process_commands, if_pos hp, List.append_eq,
      ih, List.map_cons, List.flatten_cons, List.append_assoc]

/-- C9: process_commands processes its list in order, returns True for
the empty list, returns True exactly when every command's processing
succeeds, in which case the trace is the concatenation of the
per-command traces in list order, and returns False at the first
failing command without processing any later one - the trace then ends
with the failing command's effects. -/
theorem process_commands_order_and_early_stop (env : OsEnv)
    (pag : Option Driver) :
    (process_commands env pag [] = (true, [])) ∧
    (∀ json_commands : List Command,
      (process_commands env pag json_commands).fst =
        json_commands.all (fun c => (process_command env pag c).success)) ∧
    (∀ json_commands : List Command,
      (∀ c ∈ json_commands, (process_command env pag c).success = true) →
      process_commands env pag json_commands =
        (true, (json_commands.map
          (fun c => (process_command env pag c).effects)).flatten)) ∧
    (∀ pre c post,
      (∀ p ∈ pre, (process_command env pag p).success = true) →
      (process_command env pag c).success = false →
      process_commands env pag (pre ++ c :: post) =
        (false, (pre.map (fun p => (process_command env pag p).effects)).flatten ++
          (process_command env pag c).effects)) :=
  ⟨rfl, process_commands_all_eq env pag, process_commands_all_success env pag,
   process_commands_stops_at_failure env pag⟩

/-- C9, witnessed at a concrete list where the middle command (open_url)
fails: the sleep command before it runs, the click command after it is
never processed, and the run of only succeeding commands returns True. -/
theorem process_commands_order_and_early_stop_witness :
    process_commands envNoErr none ([sleepCmd] ++ openUrlCmd :: [clickCmd]) =
      (false, ([sleepCmd].map
          (fun p => (process_command envNoErr none p).effects)).flatten ++
        (process_command envNoErr none openUrlCmd).effects) ∧
    (process_commands envNoErr none [sleepCmd, clickCmd]).fst = true :=
  ⟨(process_commands_order_and_early_stop envNoErr none).2.2.2
      [sleepCmd] openUrlCmd [clickCmd]
      (fun p hp => by
        simp only [List.mem_singleton] at hp
        subst hp
        rfl)
      rfl,
   by
    rw [(process_commands_order_and_early_stop envNoErr none).2.1
      [sleepCmd, clickCmd]]
    rfl⟩

/-- C8 counterexample: for a run whose status is failed,
send_message_to_llm prints the waiting line, sleeps one second, prints
the failure information (including the reason) and returns the Python
None - the reason is only printed, never carried in the returned value,
which is not a ModelRunFailed error. -/
theorem send_message_to_llm_failed_returns_none :
    send_message_to_llm ⟨RunStatus.failed, some ("boom".data)⟩
        ([42] : List Nat) 100 =
      ([SendEffect.printWaiting RunStatus.failed, SendEffect.sleepOne,
        SendEffect.printFailed (some ("boom".data))], SendResult.pyNone) ∧
    (SendResult.pyNone : SendResult Nat) ≠ SendResult.newestReply (some 42) :=
  ⟨rfl, fun hcon => SendResult.noConfusion hcon⟩

/-- C8 amended: the loop of send_message_to_llm never refreshes the run
status returned by create_and_poll, so it is not a poll loop: with
status completed it immediately fetches the message list and returns
its newest entry; with status failed it sleeps once and returns None
(the reason reaches only a printout); with any other status it sleeps
one second per iteration forever and never returns, whatever fuel is
allowed. -/
theorem send_message_to_llm_terminal_behavior (run : Run)
    (data : List Nat) :
    (∀ fuel, 0 < fuel → run.status = RunStatus.completed →
      send_message_to_llm run data fuel =
        ([], SendResult.newestReply data.head?)) ∧
    (∀ fuel, 0 < fuel → run.status = RunStatus.failed →
      send_message_to_llm run data fuel =
        ([SendEffect.printWaiting run.status, SendEffect.sleepOne,
          SendEffect.printFailed run.last_error], SendResult.pyNone)) ∧
    (∀ fuel, run.status ≠ RunStatus.completed →
      run.status ≠ RunStatus.failed →
      (send_message_to_llm run data fuel).snd = SendResult.neverReturns) := by
  refine ⟨?_, ?_, ?_⟩
  · intro fuel hf hc
    cases fuel with
    | zero => exact absurd hf (by simp)
    | succ n =>
      simp only [send_message_to_llm, sendPollLoop, if_pos hc]
  · intro fuel hf hfail
    have hnc : ¬(run.status = RunStatus.completed) := by
      rw [hfail]
      exact fun hcon => RunStatus.noConfusion hcon
    cases fuel with
    | zero => exact absurd hf (by simp)
    | succ n =>
      simp only [send_message_to_llm, sendPollLoop, if_neg hnc, if_pos hfail]
      rfl
  · intro fuel hnc hnf
    induction fuel with
    | zero => rfl
    | succ n ih =>
      simp only [send_message_to_llm, sendPollLoop, if_neg hnc, if_neg hnf]
      simp only [send_message_to_llm] at ih
      simp [ih]

/-- C8 amended, witnessed at a completed, a failed and a queued run. -/
theorem send_message_to_llm_terminal_behavior_witness :
    send_message_to_llm ⟨RunStatus.completed, none⟩ ([7, 3] : List Nat) 5 =
      ([], SendResult.newestReply (some 7)) ∧
    send_message_to_llm ⟨RunStatus.failed, some ("err".data)⟩
        ([7, 3] : List Nat) 5 =
      ([SendEffect.printWaiting RunStatus.failed, SendEffect.sleepOne,
        SendEffect.printFailed (some ("err".data))], SendResult.pyNone) ∧
    (send_message_to_llm ⟨RunStatus.queued, none⟩
        ([7, 3] : List Nat) 4).snd = SendResult.neverReturns :=
  ⟨(send_message_to_llm_terminal_behavior
      ⟨RunStatus.completed, none⟩ [7, 3]).1 5 (by decide) rfl,
   (send_message_to_llm_terminal_behavior
      ⟨RunStatus.failed, some ("err".data)⟩ [7, 3]).2.1 5 (by decide) rfl,
   (send_message_to_llm_terminal_behavior
      ⟨RunStatus.queued, none⟩ [7, 3]).2.2 4
      (fun hcon => RunStatus.noConfusion hcon)
      (fun hcon => RunStatus.noConfusion hcon)⟩

/-! Lemmas about the string primitives, used to settle the parser
claims. Throughout, a "sandwich" is a text of the shape
pre ++ s ++ post where s starts with an opening brace and ends with a
closing brace and the surroundings contain no braces. -/

/-- Helper: findIdxChar misses a list without the character. -/
theorem findIdxChar_eq_none (c : Char) :
    ∀ l : List Char, (∀ x ∈ l, x ≠ c) → findIdxChar c l = none
  | [], _ => rfl
  | x :: xs, h => by
    have hx : x ≠ c := h x (List.mem_cons_self x xs)
    rw [findIdxChar, if_neg hx,
      findIdxChar_eq_none c xs (fun y hy => h y (List.mem_cons_of_mem x hy))]
    rfl

/-- Helper: findIdxChar on an append whose left part misses the
character and whose right part starts with it. -/
theorem findIdxChar_append_head (c : Char) :
    ∀ l₁ l₂ : List Char, (∀ x ∈ l₁, x ≠ c) → l₂.head? = some c →
      findIdxChar c (l₁ ++ l₂) = some l₁.length
  | [], l₂, _, h2 => by
    cases l₂ with
    | nil => cases h2
    | cons y ys =>
      have hy : y = c := by
        simp only [List.head?_cons, Option.some.injEq] at h2
        exact h2
      simp [findIdxChar, hy]
  | x :: xs, l₂, h1, h2 => by
    have hx : x ≠ c := h1 x (List.mem_cons_self x xs)
    have ih := findIdxChar_append_head c xs l₂
      (fun y hy => h1 y (List.mem_cons_of_mem x hy)) h2
    simp [findIdxChar, if_neg hx, ih]

/-- Helper: a findIdxChar hit is inside the list. -/
theorem findIdxChar_lt_length (c : Char) :
    ∀ l : List Char, ∀ i : Nat, findIdxChar c l = some i → i < l.length
  | [], i, h => by cases h
  | x :: xs, i, h => by
    by_cases hx : x = c
    · rw [findIdxChar, if_pos hx] at h
      cases h
      simp
    · rw [findIdxChar, if_neg hx] at h
      cases hj : findIdxChar c xs with
      | none => rw [hj] at h; cases h
      | some j =>
        rw [hj] at h
        simp only [Option.map_some', Option.some.injEq] at h
        have := findIdxChar_lt_length c xs j hj
        simp only [List.length_cons]
        omega

/-- Helper: a hit at index zero means the list starts with the
character. -/
theorem findIdxChar_zero (c : Char) (l : List Char)
    (h : findIdxChar c l = some 0) : l.head? = some c := by
  cases l with
  | nil => cases h
  | cons x xs =>
    by_cases hx : x = c
    · simp [hx]
    · rw [findIdxChar, if_neg hx] at h
      cases hj : findIdxChar c xs with
      | none => rw [hj] at h; cases h
      | some j =>
        rw [hj] at h
        simp only [Option.map_some', Option.some.injEq] at h
        omega

/-- Helper: a member gives findIdxChar a hit. -/
theorem findIdxChar_of_mem (c : Char) :
    ∀ l : List Char, c ∈ l → ∃ i, findIdxChar c l = some i
  | [], h => absurd h (List.not_mem_nil c)
  | x :: xs, h => by
    by_cases hx : x = c
    · exact ⟨0, by rw [findIdxChar, if_pos hx]⟩
    · have hxs : c ∈ xs := by
        cases List.mem_cons.mp h with
        | inl heq => exact absurd heq.symm hx
        | inr hm => exact hm
      obtain ⟨j, hj⟩ := findIdxChar_of_mem c xs hxs
      exact ⟨j + 1, by rw [findIdxChar, if_neg hx, hj]; rfl⟩

/-- Helper: the head of an append with a non-empty left part. -/
theorem head?_append_left (s B : List Char) (a : Char)
    (h : s.head? = some a) : (s ++ B).head? = some a := by
  cases s with
  | nil => cases h
  | cons x xs => simpa using h

/-- Helper: dropWhile distributes over an append whose right part starts
with an element the predicate rejects. -/
theorem dropWhile_append_head_neg (p : Char → Bool) (l₁ l₂ : List Char)
    (a : Char) (h2 : l₂.head? = some a) (ha : p a = false) :
    (l₁ ++ l₂).dropWhile p = l₁.dropWhile p ++ l₂ := by
  rw [List.dropWhile_append]
  by_cases h : (l₁.dropWhile p).isEmpty
  · rw [if_pos h]
    rw [List.isEmpty_iff] at h
    rw [h, List.nil_append]
    cases l₂ with
    | nil => cases h2
    | cons y ys =>
      have hy : y = a := by
        simp only [List.head?_cons, Option.some.injEq] at h2
        exact h2
      rw [List.dropWhile_cons, hy, ha]
      simp
  · rw [if_neg h]

/-- Helper: stripping a sandwich strips only prose whitespace, leaving
the braced core intact. -/
theorem pyStrip_sandwich (pre s post : List Char)
    (h1 : s.head? = some lbrace) (h2 : s.getLast? = some rbrace) :
    pyStrip (pre ++ s ++ post) =
      pre.dropWhile pyIsSpace ++ s ++
        (post.reverse.dropWhile pyIsSpace).reverse := by
  have hna : pyIsSpace lbrace = false := by decide
  have hnb : pyIsSpace rbrace = false := by decide
  have hsrev : s.reverse.head? = some rbrace := by
    rw [List.head?_reverse]
    exact h2
  unfold pyStrip
  rw [List.append_assoc,
    dropWhile_append_head_neg pyIsSpace pre (s ++ post) lbrace
      (head?_append_left s post lbrace h1) hna]
  have hrev : (pre.dropWhile pyIsSpace ++ (s ++ post)).reverse =
      post.reverse ++ (s.reverse ++ (pre.dropWhile pyIsSpace).reverse) := by
    simp [List.reverse_append, List.append_assoc]
  rw [hrev,
    dropWhile_append_head_neg pyIsSpace post.reverse
      (s.reverse ++ (pre.dropWhile pyIsSpace).reverse) rbrace
      (head?_append_left s.reverse (pre.dropWhile pyIsSpace).reverse rbrace hsrev)
      hnb]
  simp [List.reverse_append, List.append_assoc]

/-- Helper: a string that starts with the opening brace and ends with
the closing brace strips to itself. -/
theorem pyStrip_braced (s : List Char) (h1 : s.head? = some lbrace)
    (h2 : s.getLast? = some rbrace) : pyStrip s = s := by
  have h := pyStrip_sandwich [] s [] h1 h2
  simpa using h

/-- Helper: locating the first opening brace of a sandwich. -/
theorem pyFind_sandwich (A s B : List Char)
    (hA : ∀ x ∈ A, x ≠ lbrace) (h1 : s.head? = some lbrace) :
    pyFind (A ++ s ++ B) lbrace = Int.ofNat A.length := by
  unfold pyFind
  rw [List.append_assoc,
    findIdxChar_append_head lbrace A (s ++ B) hA
      (head?_append_left s B lbrace h1)]

/-- Helper: locating the last closing brace of a sandwich. -/
theorem pyRfind_sandwich (A s B : List Char)
    (hB : ∀ x ∈ B, x ≠ rbrace) (h2 : s.getLast? = some rbrace) :
    pyRfind (A ++ s ++ B) rbrace = Int.ofNat (A.length + s.length - 1) := by
  have hsrev : s.reverse.head? = some rbrace := by
    rw [List.head?_reverse]
    exact h2
  have hBr : ∀ x ∈ B.reverse, x ≠ rbrace :=
    fun x hx => hB x (List.mem_reverse.mp hx)
  unfold pyRfind
  have hrev : (A ++ s ++ B).reverse =
      B.reverse ++ (s.reverse ++ A.reverse) := by
    simp [List.reverse_append, List.append_assoc]
  rw [hrev,
    findIdxChar_append_head rbrace B.reverse (s.reverse ++ A.reverse) hBr
      (head?_append_left s.reverse A.reverse rbrace hsrev)]
  simp only [List.length_reverse, List.length_append]
  congr 1
  omega

/-- Helper: clamping an index already in range is the identity. -/
theorem pyClamp_of_mem (n i : Int) (h0 : 0 ≤ i) (hn : i ≤ n) :
    pyClamp n i = i := by
  unfold pyClamp
  rw [if_neg (by omega), if_neg (by omega)]

/-- Helper: slicing out the middle of a sandwich. -/
theorem pySlice_middle (A s B : List Char) (hs : 1 ≤ s.length) :
    pySlice (A ++ s ++ B) (Int.ofNat A.length)
      (Int.ofNat (A.length + s.length - 1) + 1) = s := by
  have hlen : (A ++ s ++ B).length = A.length + s.length + B.length := by
    simp only [List.length_append]
  have hstop : Int.ofNat (A.length + s.length - 1) + 1 =
      Int.ofNat (A.length + s.length) := by
    simp only [Int.ofNat_eq_natCast]
    omega
  unfold pySlice
  rw [hstop, hlen,
    pyClamp_of_mem (Int.ofNat (A.length + s.length + B.length))
      (Int.ofNat (A.length + s.length))
      (by simp only [Int.ofNat_eq_natCast]; omega)
      (by simp only [Int.ofNat_eq_natCast]; omega),
    pyClamp_of_mem (Int.ofNat (A.length + s.length + B.length))
      (Int.ofNat A.length)
      (by simp only [Int.ofNat_eq_natCast]; omega)
      (by simp only [Int.ofNat_eq_natCast]; omega)]
  rw [show (Int.ofNat (A.length + s.length)).toNat = A.length + s.length from rfl,
    show (Int.ofNat A.length).toNat = A.length from rfl,
    List.append_assoc, List.take_append, List.take_left, List.drop_left]

/-- C1 amended: for every reply of the shape prose-object-prose in which
the surrounding prose contains no brace characters and the object
substring starts with the opening brace, ends with the closing brace and
decodes to o, convert_llm_response_to_json_instructions returns exactly
o: stripping preserves the object, the first opening and last closing
brace delimit exactly the object substring, and its decode result is
returned. -/
theorem convert_recovers_embedded_object
    (loads : List Char → Option Json) (pre s post : List Char) (o : Json)
    (hpre : ∀ x ∈ pre, x ≠ lbrace ∧ x ≠ rbrace)
    (hpost : ∀ x ∈ post, x ≠ lbrace ∧ x ≠ rbrace)
    (h1 : s.head? = some lbrace) (h2 : s.getLast? = some rbrace)
    (hdec : loads s = some o) :
    convert_llm_response_to_json_instructions loads (pre ++ s ++ post) = o := by
  have hs1 : 1 ≤ s.length := by
    cases s with
    | nil => cases h1
    | cons x xs => simp
  have hA : ∀ x ∈ pre.dropWhile pyIsSpace, x ≠ lbrace :=
    fun x hx => (hpre x ((List.dropWhile_suffix pyIsSpace).subset hx)).1
  have hB : ∀ x ∈ (post.reverse.dropWhile pyIsSpace).reverse, x ≠ rbrace := by
    intro x hx
    have hx1 : x ∈ post.reverse.dropWhile pyIsSpace := List.mem_reverse.mp hx
    have hx2 : x ∈ post.reverse := (List.dropWhile_suffix pyIsSpace).subset hx1
    exact (hpost x (List.mem_reverse.mp hx2)).2
  unfold convert_llm_response_to_json_instructions
  rw [pyStrip_sandwich pre s post h1 h2,
    pyFind_sandwich _ s _ hA h1,
    pyRfind_sandwich _ s _ hB h2,
    pySlice_middle _ s _ hs1,
    pyStrip_braced s h1 h2, hdec]

/-- C1 counterexample: a reply consisting of prose that itself contains
an opening brace, followed by one well-formed JSON object, is mis-parsed:
the overall text decomposes as that prose plus the object, the object
substring alone decodes to the one-field object, yet the parser returns
the empty object, because the substring from the first opening brace (in
the prose) to the last closing brace is not valid JSON. -/
theorem convert_overcaptures_with_braced_prose :
    ("x \x7b y ".data ++ "\x7b\"a\":1\x7d".data =
      "x \x7b y \x7b\"a\":1\x7d".data) ∧
    jsonLoadsModel ("\x7b\"a\":1\x7d".data) =
      some (Json.obj [(("a".data), Json.num 1)]) ∧
    convert_llm_response_to_json_instructions jsonLoadsModel
      ("x \x7b y \x7b\"a\":1\x7d".data) = Json.obj [] ∧
    Json.obj ([] : List (List Char × Json)) ≠
      Json.obj [(("a".data), Json.num 1)] :=
  ⟨rfl, rfl, rfl, fun hcon => by injection hcon with h; cases h⟩

/-- C1 amended, witnessed at a concrete reply with brace-free prose. -/
theorem convert_recovers_embedded_object_witness :
    convert_llm_response_to_json_instructions jsonLoadsModel
      ("Sure! ".data ++ "\x7b\"a\":1\x7d".data ++ " ok.".data) =
      Json.obj [(("a".data), Json.num 1)] :=
  convert_recovers_embedded_object jsonLoadsModel ("Sure! ".data)
    ("\x7b\"a\":1\x7d".data) (" ok.".data)
    (Json.obj [(("a".data), Json.num 1)])
    (by decide) (by decide) (by decide) (by decide) rfl

/-- Helper: pyFind misses when the character is absent. -/
theorem pyFind_eq_neg_one (s : List Char) (c : Char)
    (h : ∀ x ∈ s, x ≠ c) : pyFind s c = -1 := by
  unfold pyFind
  rw [findIdxChar_eq_none c s h]

/-- Helper: pyRfind misses when the character is absent. -/
theorem pyRfind_eq_neg_one (s : List Char) (c : Char)
    (h : ∀ x ∈ s, x ≠ c) : pyRfind s c = -1 := by
  unfold pyRfind
  rw [findIdxChar_eq_none c s.reverse
    (fun x hx => h x (List.mem_reverse.mp hx))]

/-- Helper: clamping zero against a nonnegative length. -/
theorem pyClamp_zero (n : Int) (hn : 0 ≤ n) : pyClamp n 0 = 0 := by
  unfold pyClamp
  rw [if_neg (by omega), if_neg (by omega)]

/-- Helper: clamping minus one against a positive length. -/
theorem pyClamp_neg_one (n : Int) (hn : 1 ≤ n) : pyClamp n (-1) = n - 1 := by
  unfold pyClamp
  rw [if_pos (by omega), if_neg (by omega)]
  omega

/-- Helper: a slice with stop index zero is empty. -/
theorem pySlice_stop_zero (s : List Char) (a : Int) : pySlice s a 0 = [] := by
  unfold pySlice
  rw [pyClamp_zero (Int.ofNat s.length)
      (by simp only [Int.ofNat_eq_natCast]; omega),
    show (0 : Int).toNat = 0 from rfl, List.take_zero, List.drop_nil]

/-- Helper: with no opening brace in a text, the selected-and-stripped
substring is empty, or a single closing brace when a closing brace ends
the text. -/
theorem slice_no_lbrace (L : List Char) (hL : ∀ x ∈ L, x ≠ lbrace) :
    pyStrip (pySlice L (pyFind L lbrace) (pyRfind L rbrace + 1)) = [] ∨
    pyStrip (pySlice L (pyFind L lbrace) (pyRfind L rbrace + 1)) =
      [rbrace] := by
  rw [pyFind_eq_neg_one L lbrace hL]
  by_cases hmem : rbrace ∈ L
  case neg =>
    left
    rw [pyRfind_eq_neg_one L rbrace (fun x hx hxc => hmem (hxc ▸ hx)),
      show (-1 : Int) + 1 = 0 from rfl, pySlice_stop_zero]
    rfl
  case pos =>
    have hlen1 : 1 ≤ L.length :=
      List.length_pos.mpr (List.ne_nil_of_mem hmem)
    obtain ⟨i, hi⟩ :=
      findIdxChar_of_mem rbrace L.reverse (List.mem_reverse.mpr hmem)
    have hilt : i < L.length := by
      have h := findIdxChar_lt_length rbrace L.reverse i hi
      simpa using h
    have hstop : pyRfind L rbrace + 1 = Int.ofNat (L.length - i) := by
      unfold pyRfind
      rw [hi]
      simp only [Int.ofNat_eq_natCast]
      omega
    rw [hstop]
    unfold pySlice
    rw [pyClamp_neg_one (Int.ofNat L.length)
        (by simp only [Int.ofNat_eq_natCast]; omega),
      pyClamp_of_mem (Int.ofNat L.length) (Int.ofNat (L.length - i))
        (by simp only [Int.ofNat_eq_natCast]; omega)
        (by simp only [Int.ofNat_eq_natCast]; omega),
      show (Int.ofNat (L.length - i)).toNat = L.length - i from rfl,
      show (Int.ofNat L.length - 1).toNat = L.length - 1 from
        (by simp only [Int.ofNat_eq_natCast]; omega)]
    cases Nat.eq_zero_or_pos i with
    | inr hipos =>
      left
      have hdrop : (L.take (L.length - i)).drop (L.length - 1) = [] := by
        apply List.drop_eq_nil_of_le
        rw [List.length_take]
        omega
      rw [hdrop]
      rfl
    | inl hizero =>
      right
      subst hizero
      have hhead := findIdxChar_zero rbrace L.reverse hi
      cases hLr : L.reverse with
      | nil => rw [hLr] at hhead; cases hhead
      | cons y t =>
        have hy : y = rbrace := by
          rw [hLr] at hhead
          simp only [List.head?_cons, Option.some.injEq] at hhead
          exact hhead
        subst hy
        have hLeq : L = t.reverse ++ [rbrace] := by
          have h' := congrArg List.reverse hLr
          rw [List.reverse_reverse, List.reverse_cons] at h'
          exact h'
        have htake : L.take (L.length - 0) = L := by
          rw [Nat.sub_zero]
          exact List.take_length L
        rw [htake]
        have hdrop : L.drop (L.length - 1) = [rbrace] := by
          rw [hLeq]
          have hidx : (t.reverse ++ [rbrace]).length - 1 = t.reverse.length := by
            simp
          rw [hidx, List.drop_left]
        rw [hdrop]
        rfl

/-- C2 amended: the parser does not distinguish its failure modes. For
every decoder and reply, a decoder rejection of the selected substring
makes the parser return the empty object (the except handler's value)
without raising; with no closing brace in the stripped reply the
selected substring is empty; and with no opening brace the selected,
stripped substring is empty or a lone closing brace, so a decoder that,
like json.loads, rejects both makes the parser return the empty object.
No NoJsonFound or MalformedJson value exists, and the raw substring is
not carried: the failure result coincides with the successful parse of
a reply whose JSON part is the empty object. -/
theorem convert_failure_modes (loads : List Char → Option Json)
    (value : List Char) :
    (loads (pyStrip (pySlice (pyStrip value) (pyFind (pyStrip value) lbrace)
        (pyRfind (pyStrip value) rbrace + 1))) = none →
      convert_llm_response_to_json_instructions loads value = Json.obj []) ∧
    ((∀ x ∈ pyStrip value, x ≠ rbrace) →
      pySlice (pyStrip value) (pyFind (pyStrip value) lbrace)
        (pyRfind (pyStrip value) rbrace + 1) = []) ∧
    ((∀ x ∈ pyStrip value, x ≠ lbrace) →
      loads [] = none → loads [rbrace] = none →
      convert_llm_response_to_json_instructions loads value = Json.obj []) := by
  refine ⟨?_, ?_, ?_⟩
  · intro h
    unfold convert_llm_response_to_json_instructions
    rw [h]
  · intro h
    rw [pyRfind_eq_neg_one _ _ h, show (-1 : Int) + 1 = 0 from rfl,
      pySlice_stop_zero]
  · intro hL h0 hbr
    rcases slice_no_lbrace (pyStrip value) hL with hsl | hsl
    · unfold convert_llm_response_to_json_instructions
      rw [hsl, h0]
    · unfold convert_llm_response_to_json_instructions
      rw [hsl, hbr]

/-- C2 counterexample: the no-braces reply, a malformed-JSON reply and
the reply whose JSON part is the empty object all make the parser return
the very same value, the empty object - there is no distinguishable
NoJsonFound or MalformedJson error and no carried raw substring. -/
theorem convert_failures_indistinguishable :
    convert_llm_response_to_json_instructions jsonLoadsModel
      ("I cannot help with that.".data) = Json.obj [] ∧
    convert_llm_response_to_json_instructions jsonLoadsModel
      ("Sure: \x7b broken \x7d".data) = Json.obj [] ∧
    convert_llm_response_to_json_instructions jsonLoadsModel
      ("\x7b\x7d".data) = Json.obj [] :=
  ⟨rfl, rfl, rfl⟩

/-- C2 amended, witnessed at a brace-free reply with the modelled
json.loads. -/
theorem convert_failure_modes_witness :
    convert_llm_response_to_json_instructions jsonLoadsModel
      ("no json here".data) = Json.obj [] ∧
    pySlice (pyStrip ("no json here".data))
      (pyFind (pyStrip ("no json here".data)) lbrace)
      (pyRfind (pyStrip ("no json here".data)) rbrace + 1) = [] :=
  ⟨(convert_failure_modes jsonLoadsModel ("no json here".data)).2.2
      (by decide) rfl rfl,
   (convert_failure_modes jsonLoadsModel ("no json here".data)).2.1
      (by decide)⟩

end AgentSpec
